import Mathlib

/-!
Shallow embedding of the flocking simulation in `boid_art.py`: a pygame
"boids" script in which agents accumulate cohesion, alignment, separation and
cross-type avoidance forces, integrate their motion with a speed clamp, wrap
around the screen edges, and may be relocated by a movable black hole.

Machine floats are modelled by real numbers, numpy arrays of length 2 by
pairs of reals, exact Python integer/rational arithmetic (the colour palette)
by rationals, and the global random source by explicitly injected values.
Python division, which raises ZeroDivisionError on a zero denominator, is
modelled with an Option result.
-/

namespace BoidArt

open scoped Classical

/-- Two-dimensional vectors: the model of numpy arrays of length 2. -/
abbrev Vec : Type := ℝ × ℝ

/-- Elementwise scaling of a numpy vector by a scalar, as in `v * 0.3`. -/
instance : HMul Vec ℝ Vec := ⟨fun v c => (v.1 * c, v.2 * c)⟩

/-- Elementwise division of a numpy vector by a scalar, as in `v / total`. -/
noncomputable instance : HDiv Vec ℝ Vec := ⟨fun v c => (v.1 / c, v.2 / c)⟩

/-- Euclidean norm of a vector, as computed by `np.linalg.norm`. -/
noncomputable def linalgNorm (v : Vec) : ℝ := Real.sqrt (v.1 ^ 2 + v.2 ^ 2)

/-! Configuration constants of `boid_art.py` (lines 9-34).  `SCREEN_WIDTH`
and `SCREEN_HEIGHT` are reassigned from the fullscreen surface at startup, so
theorems about the boundary take the width and height as parameters. -/

def NUM_BOIDS : ℕ := 250
def NUM_TYPES : ℕ := 7
def GRADATION_LEVELS : ℕ := 10
noncomputable def BOID_SPEED : ℝ := 8
noncomputable def PERCEPTION_RADIUS : ℝ := 250
noncomputable def SEPARATION_RADIUS : ℝ := 50
noncomputable def AVOIDANCE_RADIUS : ℝ := 120
noncomputable def TURNING_FACTOR : ℝ := 0.5
noncomputable def BLACK_HOLE_RADIUS : ℝ := 50
noncomputable def BLACK_HOLE_SPEED : ℝ := 10

/-! The colour palette (`generate_palette`, lines 53-69).  All arithmetic here
is exact (Python ints and floats on small dyadic/decimal values are modelled
by rationals); the one failure point is the division `i / (gradation_levels - 1)`. -/

/-- An RGB colour with rational components. -/
abbrev Color : Type := ℚ × ℚ × ℚ

/-- Python division: raises (returns `none`) iff the denominator is zero. -/
def pyDiv (a b : ℚ) : Option ℚ := if b = 0 then none else some (a / b)

/-- The fixed 6-entry base hue table of `generate_palette`. -/
def base_colors : List Color :=
  [(200, 50, 50), (50, 200, 50), (50, 50, 200),
   (200, 200, 50), (200, 50, 200), (50, 200, 200)]

/-- Model of a Python for-loop that appends one result per element and
propagates the first raised exception. -/
def optionMap (f : α → Option β) : List α → Option (List β)
  | [] => some []
  | a :: l =>
    match f a with
    | none => none
    | some b => (optionMap f l).map (b :: ·)

/-- The inner loop of `generate_palette`: the `gradation_levels` brightness
variants of one base colour (lines 64-67). -/
def gradation (color : Color) (gradation_levels : ℕ) : Option (List Color) :=
  optionMap (fun i =>
      (pyDiv (i : ℚ) ((gradation_levels : ℚ) - 1)).map fun blend_factor =>
        (color.1 + ((255 : ℚ) - color.1) * blend_factor * (0.3 : ℚ),
         color.2.1 + ((255 : ℚ) - color.2.1) * blend_factor * (0.3 : ℚ),
         color.2.2 + ((255 : ℚ) - color.2.2) * blend_factor * (0.3 : ℚ)))
    (List.range gradation_levels)

/-- Model of `generate_palette(n, gradation_levels)` (lines 53-69). -/
def generate_palette (n gradation_levels : ℕ) : Option (List Color) :=
  let selected_colors :=
    (List.range n).map fun i => base_colors.getD (i % base_colors.length) (0, 0, 0)
  (optionMap (fun color => gradation color gradation_levels) selected_colors).map List.flatten

/-! Body sizes.  `BODY_SIZES` is a configured nonempty list of integer sizes
(`generate_body_sizes`); the claims quantify over every configured body-size
set, so the list is a parameter.  `min(BODY_SIZES)` and `max(BODY_SIZES)` on a
nonempty list are modelled by `listMin` and `listMax`. -/

/-- Python `min` on a list of ints (meaningful only for nonempty lists). -/
def listMin : List ℤ → ℤ
  | [] => 0
  | x :: xs => xs.foldl min x

/-- Python `max` on a list of ints (meaningful only for nonempty lists). -/
def listMax : List ℤ → ℤ
  | [] => 0
  | x :: xs => xs.foldl max x

/-! The `Boid` class (lines 85-168).  The drawn colour is determined by the
immutable `colorIndex`, so it is kept as the index. -/

@[ext] structure Boid where
  position : Vec
  velocity : Vec
  acceleration : Vec
  max_speed : ℝ
  perception : ℝ
  colorIndex : ℕ
  type : ℕ
  size : ℤ
  attractiveness : ℝ

instance : Inhabited Boid :=
  ⟨⟨((0 : ℝ), (0 : ℝ)), ((0 : ℝ), (0 : ℝ)), ((0 : ℝ), (0 : ℝ)), 0, 0, 0, 0, 0, 0⟩⟩

/-- Model of `Boid.__init__(x, y, color_index)` (lines 86-97).  The random
heading angle and the size drawn by `random.choice(BODY_SIZES)` are injected;
`sizes` is the configured `BODY_SIZES` list. -/
noncomputable def mkBoid (x y : ℝ) (color_index : ℕ) (angle : ℝ) (size : ℤ)
    (sizes : List ℤ) : Boid where
  position := (x, y)
  velocity := ((Real.cos angle, Real.sin angle) : Vec) * BOID_SPEED
  acceleration := ((0 : ℝ), (0 : ℝ))
  max_speed := BOID_SPEED
  perception := PERCEPTION_RADIUS
  colorIndex := color_index
  type := color_index / GRADATION_LEVELS
  size := size
  attractiveness :=
    ((size : ℝ) - (listMin sizes : ℝ)) / ((listMax sizes : ℝ) - (listMin sizes : ℝ) + 1)

/-- Model of `Boid.update` (lines 99-106): velocity gains the accumulated
acceleration, speed is clamped to `max_speed`, position advances by the
clamped velocity, and the acceleration is reset. -/
noncomputable def update (b : Boid) : Boid :=
  let v := b.velocity + b.acceleration
  let speed := linalgNorm v
  let v2 := if speed > b.max_speed then v / speed * b.max_speed else v
  { b with velocity := v2, position := b.position + v2,
           acceleration := ((0 : ℝ), (0 : ℝ)) }

/-- Model of `Boid.apply_force` (lines 108-110). -/
noncomputable def apply_force (b : Boid) (force : Vec) : Boid :=
  { b with acceleration :=
      b.acceleration + force * TURNING_FACTOR * ((0.5 : ℝ) + b.attractiveness) }

/-- The running accumulators of the neighbour scan in `Boid.flock`
(lines 114-117). -/
structure FlockAcc where
  avg_position : Vec
  avg_velocity : Vec
  total : ℕ
  separation_force : Vec
  avoid_total : ℕ
  avoidance : Vec
  different_type_total : ℕ

/-- One iteration of the neighbour-scan loop of `Boid.flock` (lines 119-138),
for a single other boid. -/
noncomputable def flockStep (self : Boid) (acc : FlockAcc) (other : Boid) : FlockAcc :=
  let dist := linalgNorm (self.position - other.position)
  if self.type = other.type then
    if dist < self.perception then
      let acc1 := { acc with avg_position := acc.avg_position + other.position,
                             avg_velocity := acc.avg_velocity + other.velocity,
                             total := acc.total + 1 }
      if dist < SEPARATION_RADIUS then
        { acc1 with
            separation_force := acc1.separation_force + (self.position - other.position),
            avoid_total := acc1.avoid_total + 1 }
      else acc1
    else acc
  else
    if dist < AVOIDANCE_RADIUS then
      { acc with
          avoidance := acc.avoidance + (self.position - other.position) * (0.05 : ℝ),
          different_type_total := acc.different_type_total + 1 }
    else acc

/-- The whole neighbour scan of `Boid.flock` over the other boids.  The Python
loop iterates over the full list and skips `self` by object identity, so the
scan takes the list of the other boids. -/
noncomputable def flockScan (self : Boid) (others : List Boid) : FlockAcc :=
  others.foldl (flockStep self)
    ⟨((0 : ℝ), (0 : ℝ)), ((0 : ℝ), (0 : ℝ)), 0, ((0 : ℝ), (0 : ℝ)), 0,
     ((0 : ℝ), (0 : ℝ)), 0⟩

/-- The synthesized steering forces of `Boid.flock` (lines 140-148). -/
structure Forces where
  alignment : Vec
  cohesion : Vec
  separation : Vec
  avoidance : Vec
  different_type_total : ℕ

/-- Force synthesis after the neighbour scan (lines 140-148). -/
noncomputable def flockForces (self : Boid) (others : List Boid) : Forces :=
  let acc := flockScan self others
  let cohesion :=
    if acc.total > 0 then
      (acc.avg_position / (acc.total : ℝ) - self.position) * (0.02 : ℝ)
    else ((0 : ℝ), (0 : ℝ))
  let alignment :=
    if acc.total > 0 then
      (acc.avg_velocity / (acc.total : ℝ) - self.velocity) * (0.05 : ℝ)
    else ((0 : ℝ), (0 : ℝ))
  let separation :=
    if acc.avoid_total > 0 then acc.separation_force * (0.3 : ℝ)
    else ((0 : ℝ), (0 : ℝ))
  ⟨alignment, cohesion, separation, acc.avoidance, acc.different_type_total⟩

/-- Model of `Boid.flock` (lines 112-153): scan, synthesize, then apply the
avoidance force (only when a different-type neighbour was seen) and the
combined steering force. -/
noncomputable def flock (self : Boid) (others : List Boid) : Boid :=
  let F := flockForces self others
  let self2 := if F.different_type_total > 0 then apply_force self F.avoidance else self
  apply_force self2 (F.alignment + F.cohesion + F.separation)

/-- Model of `Boid.edges` (lines 155-160): two independent sequential wraps
for x against the width and y against the height. -/
noncomputable def edges (W H : ℝ) (b : Boid) : Boid :=
  let x1 := if b.position.1 > W then (0 : ℝ) else b.position.1
  let x2 := if x1 < 0 then W else x1
  let y1 := if b.position.2 > H then (0 : ℝ) else b.position.2
  let y2 := if y1 < 0 then H else y1
  { b with position := (x2, y2) }

/-! The per-frame boid loop (lines 207-211).  The Python loop mutates each
boid in place, in list order: when boid `i` is processed, its neighbour scan
reads the already-updated frame-k states of boids before it and the frame-k-1
states of boids after it.  `runBoids done todo` processes `todo` in order,
where `done` holds the already-processed boids. -/

noncomputable def runBoids (W H : ℝ) : List Boid → List Boid → List Boid
  | _, [] => []
  | done, b :: rest =>
    let b2 := edges W H (update (flock b (done ++ rest)))
    b2 :: runBoids W H (done ++ [b2]) rest

/-- The whole per-frame pass over the boid list (lines 207-210, without the
draw call, which only renders). -/
noncomputable def boidLoop (W H : ℝ) (boids : List Boid) : List Boid :=
  runBoids W H [] boids

/-- Modelled from the spec (sections 4.2 and 5): the per-tick update as two
fully separate passes, force computation for all agents from the frame-k-1
snapshot first, then integration and wrap for all agents.  Stated for
comparison with `boidLoop`, the loop the code actually runs. -/
noncomputable def specTwoPassLoop (W H : ℝ) (boids : List Boid) : List Boid :=
  ((List.range boids.length).map fun i =>
      flock (boids.getD i default) (boids.eraseIdx i)).map
    fun b => edges W H (update b)

/-! The black hole and the main loop (lines 181-214). -/

/-- The continuous key state read by `pygame.key.get_pressed` (lines 194-198). -/
structure Movement where
  left : Bool
  right : Bool
  up : Bool
  down : Bool

/-- The per-frame black-hole movement (lines 195-198): the four arrow keys
move the zone centre by `BLACK_HOLE_SPEED`, in source order. -/
noncomputable def moveBlackHole (keys : Movement) (p : Vec) : Vec :=
  let p1 := if keys.left then (p.1 - BLACK_HOLE_SPEED, p.2) else p
  let p2 := if keys.right then (p1.1 + BLACK_HOLE_SPEED, p1.2) else p1
  let p3 := if keys.up then (p2.1, p2.2 - BLACK_HOLE_SPEED) else p2
  if keys.down then (p3.1, p3.2 + BLACK_HOLE_SPEED) else p3

/-- The relocation of one boid by the black hole (lines 204-205): a boid
strictly inside the zone radius has its position overwritten by the two fresh
`random.randint` draws `r`; every other attribute is untouched. -/
noncomputable def relocateBoid (bh : Vec) (r : Vec) (b : Boid) : Boid :=
  if linalgNorm (b.position - bh) < BLACK_HOLE_RADIUS then { b with position := r }
  else b

/-- The relocation pass over all boids (lines 203-205); `rand i` is the pair
of `random.randint(0, SCREEN_WIDTH)`, `random.randint(0, SCREEN_HEIGHT)`
draws the i-th boid would receive. -/
noncomputable def blackHolePass (bh : Vec) (rand : ℕ → Vec) (boids : List Boid) : List Boid :=
  boids.enum.map fun p => relocateBoid bh (rand p.1) p.2

/-- The mutable world state of the main loop. -/
structure World where
  boids : List Boid
  black_hole_position : Vec
  black_hole_active : Bool

/-- One iteration of the main loop (lines 184-214), with rendering, frame
pacing and the quit event dropped: space-toggle, key-driven zone movement,
relocation of trapped boids when the zone is active, then the per-boid
flock/update/edges pass. -/
noncomputable def frame (W H : ℝ) (toggle : Bool) (keys : Movement)
    (rand : ℕ → Vec) (w : World) : World :=
  let active := if toggle then !w.black_hole_active else w.black_hole_active
  let bh := moveBlackHole keys w.black_hole_position
  let boids := if active then blackHolePass bh rand w.boids else w.boids
  { boids := boidLoop W H boids, black_hole_position := bh, black_hole_active := active }

/-! Classifications of the other boids used to state what the neighbour scan
accumulates (spec section 4.3): same-type boids within the perception radius,
same-type boids within the separation radius, and different-type boids within
the avoidance radius. -/

/-- The same-type neighbours within the perception radius. -/
noncomputable def specSameNeighbors (self : Boid) (others : List Boid) : List Boid :=
  others.filter fun o =>
    decide (self.type = o.type ∧ linalgNorm (self.position - o.position) < self.perception)

/-- The same-type neighbours within the separation radius. -/
noncomputable def specSepNeighbors (self : Boid) (others : List Boid) : List Boid :=
  others.filter fun o =>
    decide (self.type = o.type ∧ linalgNorm (self.position - o.position) < SEPARATION_RADIUS)

/-- The different-type neighbours within the avoidance radius. -/
noncomputable def specAvoidNeighbors (self : Boid) (others : List Boid) : List Boid :=
  others.filter fun o =>
    decide (¬ self.type = o.type ∧ linalgNorm (self.position - o.position) < AVOIDANCE_RADIUS)

/-! Concrete boids for witnesses and counterexamples. -/

/-- A concrete boid at the origin, at rest, of type 0, with the configured
speed limit and perception radius and attractiveness 0. -/
noncomputable def cexA : Boid :=
  ⟨((0 : ℝ), (0 : ℝ)), ((0 : ℝ), (0 : ℝ)), ((0 : ℝ), (0 : ℝ)), 8, 250, 0, 0, 10, 0⟩

/-- A concrete boid at (10, 0), at rest, of type 0, with the configured speed
limit and perception radius and attractiveness 0. -/
noncomputable def cexB : Boid :=
  ⟨((10 : ℝ), (0 : ℝ)), ((0 : ℝ), (0 : ℝ)), ((0 : ℝ), (0 : ℝ)), 8, 250, 0, 0, 10, 0⟩

/-- The state of `cexA` after one interleaved frame next to `cexB` on a
1920 x 1080 screen: it steers left, crosses x = 0 and wraps to x = 1920. -/
noncomputable def cexA2 : Boid :=
  ⟨((1920 : ℝ), (0 : ℝ)), (-(0.7 : ℝ), (0 : ℝ)), ((0 : ℝ), (0 : ℝ)), 8, 250, 0, 0, 10, 0⟩

/-- The state of `cexB` after one frame in which it saw `cexA` still at the
origin (the two-pass snapshot semantics): it steers right to x = 10.7. -/
noncomputable def cexB2 : Boid :=
  ⟨((10.7 : ℝ), (0 : ℝ)), ((0.7 : ℝ), (0 : ℝ)), ((0 : ℝ), (0 : ℝ)), 8, 250, 0, 0, 10, 0⟩

/-! Basic vector lemmas. -/

@[simp] lemma vec_mul_fst (v : Vec) (c : ℝ) : (v * c).1 = v.1 * c := rfl

@[simp] lemma vec_mul_snd (v : Vec) (c : ℝ) : (v * c).2 = v.2 * c := rfl

@[simp] lemma vec_div_fst (v : Vec) (c : ℝ) : (v / c).1 = v.1 / c := rfl

@[simp] lemma vec_div_snd (v : Vec) (c : ℝ) : (v / c).2 = v.2 / c := rfl

@[simp] lemma mk_vec_mul (a b c : ℝ) : ((a, b) : Vec) * c = (a * c, b * c) := rfl

@[simp] lemma mk_vec_div (a b c : ℝ) : ((a, b) : Vec) / c = (a / c, b / c) := rfl

lemma linalgNorm_nonneg (v : Vec) : 0 ≤ linalgNorm v := Real.sqrt_nonneg _

lemma linalgNorm_mul (v : Vec) (c : ℝ) : linalgNorm (v * c) = linalgNorm v * |c| := by
  rw [linalgNorm, linalgNorm, vec_mul_fst, vec_mul_snd,
    show (v.1 * c) ^ 2 + (v.2 * c) ^ 2 = (v.1 ^ 2 + v.2 ^ 2) * c ^ 2 by ring,
    Real.sqrt_mul (by positivity), Real.sqrt_sq_eq_abs]

lemma vec_div_mul (v : Vec) (s m : ℝ) : v / s * m = v * (m / s) := by
  rw [Prod.ext_iff]
  constructor <;> simp <;> ring

lemma abs_fst_le_linalgNorm (v : Vec) : |v.1| ≤ linalgNorm v := by
  rw [linalgNorm, ← Real.sqrt_sq_eq_abs]
  exact Real.sqrt_le_sqrt (by nlinarith [sq_nonneg v.2])

lemma abs_snd_le_linalgNorm (v : Vec) : |v.2| ≤ linalgNorm v := by
  rw [linalgNorm, ← Real.sqrt_sq_eq_abs]
  exact Real.sqrt_le_sqrt (by nlinarith [sq_nonneg v.1])

lemma linalgNorm_sub_comm (a b : Vec) : linalgNorm (a - b) = linalgNorm (b - a) := by
  rw [linalgNorm, linalgNorm]
  congr 1
  simp only [Prod.fst_sub, Prod.snd_sub]
  ring

/-! Claim C2: palette generation at `gradation_levels = 1`.  The code computes
`i / (gradation_levels - 1)` without a short-circuit, so the call raises
ZeroDivisionError (evaluates to `none`) instead of returning the base hues. -/

lemma gradation_one (c : Color) : gradation c 1 = none := by
  simp [gradation, optionMap, pyDiv]

lemma optionMap_eq_none {f : α → Option β} {l : List α} (hl : l ≠ [])
    (h : ∀ a ∈ l, f a = none) : optionMap f l = none := by
  cases l with
  | nil => exact absurd rfl hl
  | cons a l => simp [optionMap, h a (List.mem_cons_self a l)]

/-- Claim C2: for every `n ≥ 1`, `generate_palette n 1` hits the unguarded
division `i / (gradation_levels - 1)` with a zero denominator and fails
(raises ZeroDivisionError) rather than returning the base hues. -/
theorem generate_palette_div_zero (n : ℕ) (hn : 1 ≤ n) :
    generate_palette n 1 = none := by
  have h1 : optionMap (fun color => gradation color 1)
      ((List.range n).map fun i => base_colors.getD (i % base_colors.length) (0, 0, 0)) =
        none := by
    apply optionMap_eq_none
    · intro hcontra
      rw [List.map_eq_nil_iff, List.range_eq_nil] at hcontra
      omega
    · intro a _
      exact gradation_one a
  simp only [generate_palette]
  rw [h1]
  rfl

/-- Witness for C2 at the concrete failing input `n = 1`. -/
theorem generate_palette_div_zero_witness : 1 ≤ 1 ∧ generate_palette 1 1 = none :=
  ⟨le_refl 1, generate_palette_div_zero 1 (le_refl 1)⟩

/-! List minimum and maximum lemmas for the body-size range. -/

lemma foldl_min_le_init (xs : List ℤ) : ∀ x : ℤ, xs.foldl min x ≤ x := by
  induction xs with
  | nil => intro x; exact le_refl x
  | cons y ys ih => intro x; exact le_trans (ih (min x y)) (min_le_left x y)

lemma foldl_max_init_le (xs : List ℤ) : ∀ x : ℤ, x ≤ xs.foldl max x := by
  induction xs with
  | nil => intro x; exact le_refl x
  | cons y ys ih => intro x; exact le_trans (le_max_left x y) (ih (max x y))

lemma foldl_min_le_of_mem (xs : List ℤ) : ∀ x a, a ∈ xs → xs.foldl min x ≤ a := by
  induction xs with
  | nil => intro x a ha; exact absurd ha (List.not_mem_nil a)
  | cons y ys ih =>
    intro x a ha
    rcases List.mem_cons.mp ha with h | h
    · subst h
      exact le_trans (foldl_min_le_init ys (min x a)) (min_le_right x a)
    · exact ih (min x y) a h

lemma le_foldl_max_of_mem (xs : List ℤ) : ∀ x a, a ∈ xs → a ≤ xs.foldl max x := by
  induction xs with
  | nil => intro x a ha; exact absurd ha (List.not_mem_nil a)
  | cons y ys ih =>
    intro x a ha
    rcases List.mem_cons.mp ha with h | h
    · subst h
      exact le_trans (le_max_right x a) (foldl_max_init_le ys (max x a))
    · exact ih (max x y) a h

lemma listMin_le_of_mem {a : ℤ} {l : List ℤ} (h : a ∈ l) : listMin l ≤ a := by
  cases l with
  | nil => exact absurd h (List.not_mem_nil a)
  | cons x xs =>
    rcases List.mem_cons.mp h with h1 | h1
    · subst h1; exact foldl_min_le_init xs a
    · exact foldl_min_le_of_mem xs x a h1

lemma le_listMax_of_mem {a : ℤ} {l : List ℤ} (h : a ∈ l) : a ≤ listMax l := by
  cases l with
  | nil => exact absurd h (List.not_mem_nil a)
  | cons x xs =>
    rcases List.mem_cons.mp h with h1 | h1
    · subst h1; exact foldl_max_init_le xs a
    · exact le_foldl_max_of_mem xs x a h1

lemma foldl_max_mem (xs : List ℤ) : ∀ x, xs.foldl max x = x ∨ xs.foldl max x ∈ xs := by
  induction xs with
  | nil => intro x; exact Or.inl rfl
  | cons y ys ih =>
    intro x
    rcases ih (max x y) with h | h
    · rcases max_choice x y with hm | hm
      · exact Or.inl (by rw [List.foldl_cons, h, hm])
      · refine Or.inr (List.mem_cons.mpr (Or.inl ?_))
        rw [List.foldl_cons, h, hm]
    · exact Or.inr (List.mem_cons.mpr (Or.inr h))

lemma listMax_mem {l : List ℤ} (hl : l ≠ []) : listMax l ∈ l := by
  cases l with
  | nil => exact absurd rfl hl
  | cons x xs =>
    rcases foldl_max_mem xs x with h | h
    · exact List.mem_cons.mpr (Or.inl (by rw [listMax, h]))
    · exact List.mem_cons.mpr (Or.inr (by rw [listMax]; exact h))

/-! Claims C5 and C10: the attractiveness computed at construction. -/

/-- Claim C5: for every configured body-size list and every size drawn from
it, the attractiveness computed at construction is well defined: the
denominator `max - min + 1` is nonzero, the value lies in `[0, 1]`, and when
all body sizes are equal the value is exactly 0. -/
theorem attractiveness_well_defined (x y : ℝ) (ci : ℕ) (angle : ℝ) (size : ℤ)
    (sizes : List ℤ) (hmem : size ∈ sizes) :
    ((listMax sizes : ℝ) - (listMin sizes : ℝ) + 1) ≠ 0 ∧
    0 ≤ (mkBoid x y ci angle size sizes).attractiveness ∧
    (mkBoid x y ci angle size sizes).attractiveness ≤ 1 ∧
    (listMin sizes = listMax sizes →
      (mkBoid x y ci angle size sizes).attractiveness = 0) := by
  have hmin := listMin_le_of_mem hmem
  have hmax := le_listMax_of_mem hmem
  have hmm : listMin sizes ≤ listMax sizes := le_trans hmin hmax
  have hminR : (listMin sizes : ℝ) ≤ (size : ℝ) := by exact_mod_cast hmin
  have hmaxR : (size : ℝ) ≤ (listMax sizes : ℝ) := by exact_mod_cast hmax
  have hden : (0 : ℝ) < (listMax sizes : ℝ) - (listMin sizes : ℝ) + 1 := by linarith
  simp only [mkBoid]
  refine ⟨ne_of_gt hden, div_nonneg (by linarith) hden.le, ?_, ?_⟩
  · rw [div_le_one hden]; linarith
  · intro h
    have hsz : (size : ℝ) = (listMin sizes : ℝ) := by
      have : (listMax sizes : ℝ) = (listMin sizes : ℝ) := by exact_mod_cast h.symm
      linarith
    rw [hsz, sub_self, zero_div]

/-- Witness for C5 at the configured sizes `[10, 12]` with size 12. -/
theorem attractiveness_well_defined_witness :
    (12 : ℤ) ∈ [(10 : ℤ), 12] ∧ 0 ≤ (mkBoid 0 0 0 0 12 [10, 12]).attractiveness :=
  ⟨by decide, (attractiveness_well_defined 0 0 0 0 12 [10, 12] (by decide)).2.1⟩

/-- Claim C10: attractiveness equals `(size - min) / (max - min + 1)`, is
bounded by the attainable maximum `(max - min) / (max - min + 1)` (attained
at the maximal size, which is a member of the size list), and is strictly
below 1, so the steering weight `0.5 + attractiveness` never reaches 1.5. -/
theorem attractiveness_lt_one (x y : ℝ) (ci : ℕ) (angle : ℝ) (size : ℤ)
    (sizes : List ℤ) (hne : sizes ≠ []) (hmem : size ∈ sizes) :
    (mkBoid x y ci angle size sizes).attractiveness =
      ((size : ℝ) - (listMin sizes : ℝ)) /
        ((listMax sizes : ℝ) - (listMin sizes : ℝ) + 1) ∧
    (mkBoid x y ci angle size sizes).attractiveness ≤
      ((listMax sizes : ℝ) - (listMin sizes : ℝ)) /
        ((listMax sizes : ℝ) - (listMin sizes : ℝ) + 1) ∧
    listMax sizes ∈ sizes ∧
    (mkBoid x y ci angle (listMax sizes) sizes).attractiveness =
      ((listMax sizes : ℝ) - (listMin sizes : ℝ)) /
        ((listMax sizes : ℝ) - (listMin sizes : ℝ) + 1) ∧
    (mkBoid x y ci angle size sizes).attractiveness < 1 ∧
    (0.5 : ℝ) + (mkBoid x y ci angle size sizes).attractiveness < (1.5 : ℝ) := by
  have hmin := listMin_le_of_mem hmem
  have hmax := le_listMax_of_mem hmem
  have hminR : (listMin sizes : ℝ) ≤ (size : ℝ) := by exact_mod_cast hmin
  have hmaxR : (size : ℝ) ≤ (listMax sizes : ℝ) := by exact_mod_cast hmax
  have hden : (0 : ℝ) < (listMax sizes : ℝ) - (listMin sizes : ℝ) + 1 := by linarith
  have hlt : (mkBoid x y ci angle size sizes).attractiveness < 1 := by
    simp only [mkBoid]
    rw [div_lt_one hden]
    linarith
  refine ⟨rfl, ?_, listMax_mem hne, rfl, hlt, by linarith⟩
  simp only [mkBoid]
  rw [div_le_div_iff_of_pos_right hden]
  linarith

/-- Witness for C10 at the configured sizes `[10, 12]` with size 10. -/
theorem attractiveness_lt_one_witness :
    ([(10 : ℤ), 12] ≠ []) ∧ (10 : ℤ) ∈ [(10 : ℤ), 12] ∧
      (mkBoid 0 0 0 0 10 [10, 12]).attractiveness < 1 :=
  ⟨by decide, by decide,
    (attractiveness_lt_one 0 0 0 0 10 [10, 12] (by decide) (by decide)).2.2.2.2.1⟩

/-! Claim C7: force application. -/

/-- Claim C7: applying a force changes the acceleration by exactly
`force * turningFactor * (0.5 + attractiveness)` and nothing else, so two
boids receiving the identical raw force get acceleration deltas in the exact
ratio `(0.5 + attractiveness) / 0.5` relative to a boid of attractiveness 0. -/
theorem apply_force_spec (b b0 b1 : Boid) (f : Vec) (h0 : b0.attractiveness = 0) :
    (apply_force b f).acceleration =
      b.acceleration + f * TURNING_FACTOR * ((0.5 : ℝ) + b.attractiveness) ∧
    (apply_force b f).position = b.position ∧
    (apply_force b f).velocity = b.velocity ∧
    (apply_force b f).max_speed = b.max_speed ∧
    (apply_force b f).perception = b.perception ∧
    (apply_force b f).colorIndex = b.colorIndex ∧
    (apply_force b f).type = b.type ∧
    (apply_force b f).size = b.size ∧
    (apply_force b f).attractiveness = b.attractiveness ∧
    (apply_force b1 f).acceleration - b1.acceleration =
      ((apply_force b0 f).acceleration - b0.acceleration) *
        (((0.5 : ℝ) + b1.attractiveness) / (0.5 : ℝ)) := by
  refine ⟨rfl, rfl, rfl, rfl, rfl, rfl, rfl, rfl, rfl, ?_⟩
  simp only [apply_force, h0]
  rw [Prod.ext_iff]
  constructor <;> simp [TURNING_FACTOR] <;> ring

/-- Witness for C7: concrete boids of attractiveness 0 and the unit force. -/
theorem apply_force_spec_witness :
    cexA.attractiveness = 0 ∧
      (apply_force cexB ((1 : ℝ), (0 : ℝ))).acceleration =
        cexB.acceleration +
          ((1 : ℝ), (0 : ℝ)) * TURNING_FACTOR * ((0.5 : ℝ) + cexB.attractiveness) :=
  ⟨rfl, (apply_force_spec cexB cexA cexB ((1 : ℝ), (0 : ℝ)) rfl).1⟩

/-! Claim C3: the speed clamp in `Boid.update`. -/

lemma update_velocity_def (b : Boid) :
    (update b).velocity =
      if linalgNorm (b.velocity + b.acceleration) > b.max_speed then
        (b.velocity + b.acceleration) / linalgNorm (b.velocity + b.acceleration) *
          b.max_speed
      else b.velocity + b.acceleration := rfl

lemma update_position_def (b : Boid) :
    (update b).position = b.position + (update b).velocity := rfl

lemma update_norm_eq_of_gt (b : Boid) (hms : 0 < b.max_speed)
    (h : linalgNorm (b.velocity + b.acceleration) > b.max_speed) :
    linalgNorm (update b).velocity = b.max_speed := by
  have hs : 0 < linalgNorm (b.velocity + b.acceleration) := lt_trans hms h
  rw [update_velocity_def, if_pos h, vec_div_mul, linalgNorm_mul,
    abs_of_pos (div_pos hms hs), mul_comm, div_mul_cancel₀ _ (ne_of_gt hs)]

lemma update_norm_le (b : Boid) (hms : 0 < b.max_speed) :
    linalgNorm (update b).velocity ≤ b.max_speed := by
  by_cases h : linalgNorm (b.velocity + b.acceleration) > b.max_speed
  · exact le_of_eq (update_norm_eq_of_gt b hms h)
  · rw [update_velocity_def, if_neg h]
    exact le_of_not_lt h

/-- Claim C3: after integration the velocity magnitude is at most
`max_speed`; when the pre-clamp velocity exceeds it, the velocity is rescaled
to exactly `max_speed` along its own direction (a positive scalar multiple),
and otherwise it is left unchanged. -/
theorem update_speed_clamp (b : Boid) (hms : 0 < b.max_speed) :
    linalgNorm (update b).velocity ≤ b.max_speed ∧
    (linalgNorm (b.velocity + b.acceleration) > b.max_speed →
      (update b).velocity =
        (b.velocity + b.acceleration) / linalgNorm (b.velocity + b.acceleration) *
          b.max_speed ∧
      linalgNorm (update b).velocity = b.max_speed ∧
      (update b).velocity =
        (b.velocity + b.acceleration) *
          (b.max_speed / linalgNorm (b.velocity + b.acceleration)) ∧
      0 < b.max_speed / linalgNorm (b.velocity + b.acceleration)) ∧
    (¬ linalgNorm (b.velocity + b.acceleration) > b.max_speed →
      (update b).velocity = b.velocity + b.acceleration) := by
  refine ⟨update_norm_le b hms, fun h => ?_, fun h => ?_⟩
  · have hs : 0 < linalgNorm (b.velocity + b.acceleration) := lt_trans hms h
    refine ⟨by rw [update_velocity_def, if_pos h], update_norm_eq_of_gt b hms h,
      by rw [update_velocity_def, if_pos h, vec_div_mul], div_pos hms hs⟩
  · rw [update_velocity_def, if_neg h]

/-- Witness for C3 at a concrete resting boid with speed limit 8. -/
theorem update_speed_clamp_witness :
    0 < cexA.max_speed ∧ linalgNorm (update cexA).velocity ≤ cexA.max_speed :=
  ⟨by norm_num [cexA], (update_speed_clamp cexA (by norm_num [cexA])).1⟩

/-! Claim C4: the boundary wrap in `Boid.edges`. -/

lemma edges_position_eq (W H : ℝ) (c : Boid) :
    (edges W H c).position =
      ((if c.position.1 > W then (0 : ℝ) else if c.position.1 < 0 then W
          else c.position.1),
       (if c.position.2 > H then (0 : ℝ) else if c.position.2 < 0 then H
          else c.position.2)) := by
  by_cases h1 : c.position.1 > W <;> by_cases h2 : c.position.1 < 0 <;>
    by_cases h3 : c.position.2 > H <;> by_cases h4 : c.position.2 < 0 <;>
      simp [edges, h1, h2, h3, h4]

lemma edges_velocity_eq (W H : ℝ) (c : Boid) : (edges W H c).velocity = c.velocity :=
  rfl

lemma wrap_range {z M : ℝ} (hM : 0 ≤ M) :
    0 ≤ (if z > M then (0 : ℝ) else if z < 0 then M else z) ∧
      (if z > M then (0 : ℝ) else if z < 0 then M else z) ≤ M := by
  by_cases h1 : z > M
  · simp [h1, hM]
  · by_cases h2 : z < 0
    · simp [h1, h2, hM]
    · simp [h1, h2, le_of_not_lt h2, le_of_not_lt h1]

/-- Claim C4: the wrap sets x to 0 when `x > width` and to `width` when
`x < 0`, independently for y against the height, and for an agent that starts
inside the rectangle with per-tick displacement bounded by `max_speed`
(itself at most the width and the height) the post-wrap position is inside
`[0, width] x [0, height]`. -/
theorem edges_wrap_spec (W H : ℝ) (b : Boid)
    (_hx0 : 0 ≤ b.position.1) (_hxW : b.position.1 ≤ W)
    (_hy0 : 0 ≤ b.position.2) (_hyH : b.position.2 ≤ H)
    (hms : 0 < b.max_speed) (hmsW : b.max_speed ≤ W) (hmsH : b.max_speed ≤ H) :
    (∀ c : Boid,
      (edges W H c).position =
        ((if c.position.1 > W then (0 : ℝ) else if c.position.1 < 0 then W
            else c.position.1),
         (if c.position.2 > H then (0 : ℝ) else if c.position.2 < 0 then H
            else c.position.2)) ∧
      (edges W H c).velocity = c.velocity) ∧
    linalgNorm (update b).velocity ≤ b.max_speed ∧
    0 ≤ (edges W H (update b)).position.1 ∧
    (edges W H (update b)).position.1 ≤ W ∧
    0 ≤ (edges W H (update b)).position.2 ∧
    (edges W H (update b)).position.2 ≤ H := by
  have hW : (0 : ℝ) ≤ W := le_trans hms.le hmsW
  have hH : (0 : ℝ) ≤ H := le_trans hms.le hmsH
  refine ⟨fun c => ⟨edges_position_eq W H c, edges_velocity_eq W H c⟩,
    update_norm_le b hms, ?_, ?_, ?_, ?_⟩ <;>
    rw [edges_position_eq]
  · exact (wrap_range hW).1
  · exact (wrap_range hW).2
  · exact (wrap_range hH).1
  · exact (wrap_range hH).2

/-- Witness for C4 at a concrete boid on a 1920 x 1080 screen. -/
theorem edges_wrap_spec_witness :
    0 ≤ cexA.position.1 ∧ 0 ≤ (edges 1920 1080 (update cexA)).position.1 :=
  ⟨by norm_num [cexA],
    (edges_wrap_spec 1920 1080 cexA (by norm_num [cexA]) (by norm_num [cexA])
        (by norm_num [cexA]) (by norm_num [cexA]) (by norm_num [cexA])
        (by norm_num [cexA]) (by norm_num [cexA])).2.2.1⟩

/-! Further vector helpers. -/

@[simp] lemma mk_vec_add (a b c d : ℝ) :
    ((a, b) : Vec) + ((c, d) : Vec) = (a + c, b + d) := rfl

@[simp] lemma mk_vec_sub (a b c d : ℝ) :
    ((a, b) : Vec) - ((c, d) : Vec) = (a - c, b - d) := rfl

@[simp] lemma zero_vec_add (v : Vec) : (((0 : ℝ), (0 : ℝ)) : Vec) + v = v := by
  rw [Prod.ext_iff]
  constructor <;> simp

@[simp] lemma vec_add_zero (v : Vec) : v + (((0 : ℝ), (0 : ℝ)) : Vec) = v := by
  rw [Prod.ext_iff]
  constructor <;> simp

/-! Claims C6 and C8: characterization of the neighbour scan.  The scan is a
left fold of `flockStep`; the lemmas below identify each accumulator with a
sum or count over the corresponding filtered neighbour list. -/

lemma specSame_cons (self o : Boid) (rest : List Boid) :
    specSameNeighbors self (o :: rest) =
      if self.type = o.type ∧ linalgNorm (self.position - o.position) < self.perception
      then o :: specSameNeighbors self rest else specSameNeighbors self rest := by
  by_cases h : self.type = o.type ∧
      linalgNorm (self.position - o.position) < self.perception <;>
    simp [specSameNeighbors, List.filter_cons, h]

lemma specSep_cons (self o : Boid) (rest : List Boid) :
    specSepNeighbors self (o :: rest) =
      if self.type = o.type ∧ linalgNorm (self.position - o.position) < SEPARATION_RADIUS
      then o :: specSepNeighbors self rest else specSepNeighbors self rest := by
  by_cases h : self.type = o.type ∧
      linalgNorm (self.position - o.position) < SEPARATION_RADIUS <;>
    simp [specSepNeighbors, List.filter_cons, h]

lemma specAvoid_cons (self o : Boid) (rest : List Boid) :
    specAvoidNeighbors self (o :: rest) =
      if ¬ self.type = o.type ∧ linalgNorm (self.position - o.position) < AVOIDANCE_RADIUS
      then o :: specAvoidNeighbors self rest else specAvoidNeighbors self rest := by
  by_cases h : ¬ self.type = o.type ∧
      linalgNorm (self.position - o.position) < AVOIDANCE_RADIUS <;>
    simp [specAvoidNeighbors, List.filter_cons, h]

lemma sep_lt_perception : SEPARATION_RADIUS < PERCEPTION_RADIUS := by
  norm_num [SEPARATION_RADIUS, PERCEPTION_RADIUS]

lemma flockStep_eq (self : Boid) (hs : self.perception = PERCEPTION_RADIUS)
    (acc : FlockAcc) (o : Boid) :
    flockStep self acc o =
      { avg_position := acc.avg_position +
          (if self.type = o.type ∧
              linalgNorm (self.position - o.position) < self.perception
            then o.position else (0 : Vec)),
        avg_velocity := acc.avg_velocity +
          (if self.type = o.type ∧
              linalgNorm (self.position - o.position) < self.perception
            then o.velocity else (0 : Vec)),
        total := acc.total +
          (if self.type = o.type ∧
              linalgNorm (self.position - o.position) < self.perception
            then 1 else 0),
        separation_force := acc.separation_force +
          (if self.type = o.type ∧
              linalgNorm (self.position - o.position) < SEPARATION_RADIUS
            then self.position - o.position else (0 : Vec)),
        avoid_total := acc.avoid_total +
          (if self.type = o.type ∧
              linalgNorm (self.position - o.position) < SEPARATION_RADIUS
            then 1 else 0),
        avoidance := acc.avoidance +
          (if ¬ self.type = o.type ∧
              linalgNorm (self.position - o.position) < AVOIDANCE_RADIUS
            then (self.position - o.position) * (0.05 : ℝ)
            else (0 : Vec)),
        different_type_total := acc.different_type_total +
          (if ¬ self.type = o.type ∧
              linalgNorm (self.position - o.position) < AVOIDANCE_RADIUS
            then 1 else 0) } := by
  by_cases ht : self.type = o.type
  · by_cases hp : linalgNorm (self.position - o.position) < self.perception
    · by_cases hsep : linalgNorm (self.position - o.position) < SEPARATION_RADIUS <;>
        simp [flockStep, ht, hp, hsep]
    · have hsep : ¬ linalgNorm (self.position - o.position) < SEPARATION_RADIUS := by
        intro hcon
        exact hp (by rw [hs]; linarith [sep_lt_perception])
      simp [flockStep, ht, hp, hsep]
  · by_cases ha : linalgNorm (self.position - o.position) < AVOIDANCE_RADIUS <;>
      simp [flockStep, ht, ha]

lemma flockScan_foldl (self : Boid) (hs : self.perception = PERCEPTION_RADIUS) :
    ∀ (others : List Boid) (acc : FlockAcc),
      others.foldl (flockStep self) acc =
        { avg_position := acc.avg_position +
            ((specSameNeighbors self others).map Boid.position).sum,
          avg_velocity := acc.avg_velocity +
            ((specSameNeighbors self others).map Boid.velocity).sum,
          total := acc.total + (specSameNeighbors self others).length,
          separation_force := acc.separation_force +
            ((specSepNeighbors self others).map
              fun o => self.position - o.position).sum,
          avoid_total := acc.avoid_total + (specSepNeighbors self others).length,
          avoidance := acc.avoidance +
            ((specAvoidNeighbors self others).map
              fun o => (self.position - o.position) * (0.05 : ℝ)).sum,
          different_type_total := acc.different_type_total +
            (specAvoidNeighbors self others).length } := by
  intro others
  induction others with
  | nil =>
    intro acc
    cases acc
    simp [specSameNeighbors, specSepNeighbors, specAvoidNeighbors]
  | cons o rest ih =>
    intro acc
    rw [List.foldl_cons, ih (flockStep self acc o), flockStep_eq self hs acc o,
      specSame_cons, specSep_cons, specAvoid_cons]
    by_cases ht : self.type = o.type
    · by_cases hp : linalgNorm (self.position - o.position) < self.perception
      · by_cases hsep : linalgNorm (self.position - o.position) < SEPARATION_RADIUS
        · have c1 : (self.type = o.type ∧
              linalgNorm (self.position - o.position) < self.perception) = True := by
            simp [ht, hp]
          have c2 : (self.type = o.type ∧
              linalgNorm (self.position - o.position) < SEPARATION_RADIUS) = True := by
            simp [ht, hsep]
          have c3 : (¬ self.type = o.type ∧
              linalgNorm (self.position - o.position) < AVOIDANCE_RADIUS) = False := by
            simp [ht]
          simp only [c1, c2, c3, if_true, if_false, List.map_cons, List.sum_cons,
            List.length_cons, FlockAcc.mk.injEq]
          refine ⟨?_, ?_, ?_, ?_, ?_, ?_, ?_⟩ <;> first | omega | abel
        · have c1 : (self.type = o.type ∧
              linalgNorm (self.position - o.position) < self.perception) = True := by
            simp [ht, hp]
          have c2 : (self.type = o.type ∧
              linalgNorm (self.position - o.position) < SEPARATION_RADIUS) = False := by
            simp [hsep]
          have c3 : (¬ self.type = o.type ∧
              linalgNorm (self.position - o.position) < AVOIDANCE_RADIUS) = False := by
            simp [ht]
          simp only [c1, c2, c3, if_true, if_false, List.map_cons, List.sum_cons,
            List.length_cons, FlockAcc.mk.injEq]
          refine ⟨?_, ?_, ?_, ?_, ?_, ?_, ?_⟩ <;> first | omega | abel
      · have hsep : ¬ linalgNorm (self.position - o.position) < SEPARATION_RADIUS := by
          intro hcon
          exact hp (by rw [hs]; exact lt_trans hcon sep_lt_perception)
        have c1 : (self.type = o.type ∧
            linalgNorm (self.position - o.position) < self.perception) = False := by
          simp [hp]
        have c2 : (self.type = o.type ∧
            linalgNorm (self.position - o.position) < SEPARATION_RADIUS) = False := by
          simp [hsep]
        have c3 : (¬ self.type = o.type ∧
            linalgNorm (self.position - o.position) < AVOIDANCE_RADIUS) = False := by
          simp [ht]
        simp only [c1, c2, c3, if_true, if_false, List.map_cons, List.sum_cons,
          List.length_cons, FlockAcc.mk.injEq]
        refine ⟨?_, ?_, ?_, ?_, ?_, ?_, ?_⟩ <;> first | omega | abel
    · have c1 : (self.type = o.type ∧
          linalgNorm (self.position - o.position) < self.perception) = False := by
        simp [ht]
      have c2 : (self.type = o.type ∧
          linalgNorm (self.position - o.position) < SEPARATION_RADIUS) = False := by
        simp [ht]
      by_cases ha : linalgNorm (self.position - o.position) < AVOIDANCE_RADIUS
      · have c3 : (¬ self.type = o.type ∧
            linalgNorm (self.position - o.position) < AVOIDANCE_RADIUS) = True := by
          simp [ht, ha]
        simp only [c1, c2, c3, if_true, if_false, List.map_cons, List.sum_cons,
          List.length_cons, FlockAcc.mk.injEq]
        refine ⟨?_, ?_, ?_, ?_, ?_, ?_, ?_⟩ <;> first | omega | abel
      · have c3 : (¬ self.type = o.type ∧
            linalgNorm (self.position - o.position) < AVOIDANCE_RADIUS) = False := by
          simp [ha]
        simp only [c1, c2, c3, if_true, if_false, List.map_cons, List.sum_cons,
          List.length_cons, FlockAcc.mk.injEq]
        refine ⟨?_, ?_, ?_, ?_, ?_, ?_, ?_⟩ <;> first | omega | abel

lemma flockScan_eq (self : Boid) (others : List Boid)
    (hs : self.perception = PERCEPTION_RADIUS) :
    flockScan self others =
      { avg_position := ((specSameNeighbors self others).map Boid.position).sum,
        avg_velocity := ((specSameNeighbors self others).map Boid.velocity).sum,
        total := (specSameNeighbors self others).length,
        separation_force := ((specSepNeighbors self others).map
          fun o => self.position - o.position).sum,
        avoid_total := (specSepNeighbors self others).length,
        avoidance := ((specAvoidNeighbors self others).map
          fun o => (self.position - o.position) * (0.05 : ℝ)).sum,
        different_type_total := (specAvoidNeighbors self others).length } := by
  rw [flockScan, flockScan_foldl self hs others]
  simp

lemma flockForces_cohesion (self : Boid) (others : List Boid)
    (hs : self.perception = PERCEPTION_RADIUS) :
    (flockForces self others).cohesion =
      if (specSameNeighbors self others).length > 0 then
        (((specSameNeighbors self others).map Boid.position).sum /
            ((specSameNeighbors self others).length : ℝ) - self.position) * (0.02 : ℝ)
      else (((0 : ℝ), (0 : ℝ)) : Vec) := by
  rw [flockForces, flockScan_eq self others hs]

lemma flockForces_alignment (self : Boid) (others : List Boid)
    (hs : self.perception = PERCEPTION_RADIUS) :
    (flockForces self others).alignment =
      if (specSameNeighbors self others).length > 0 then
        (((specSameNeighbors self others).map Boid.velocity).sum /
            ((specSameNeighbors self others).length : ℝ) - self.velocity) * (0.05 : ℝ)
      else (((0 : ℝ), (0 : ℝ)) : Vec) := by
  rw [flockForces, flockScan_eq self others hs]

lemma flockForces_separation (self : Boid) (others : List Boid)
    (hs : self.perception = PERCEPTION_RADIUS) :
    (flockForces self others).separation =
      if (specSepNeighbors self others).length > 0 then
        ((specSepNeighbors self others).map
          fun o => self.position - o.position).sum * (0.3 : ℝ)
      else (((0 : ℝ), (0 : ℝ)) : Vec) := by
  rw [flockForces, flockScan_eq self others hs]

lemma flockForces_avoidance (self : Boid) (others : List Boid)
    (hs : self.perception = PERCEPTION_RADIUS) :
    (flockForces self others).avoidance =
      ((specAvoidNeighbors self others).map
        fun o => (self.position - o.position) * (0.05 : ℝ)).sum := by
  rw [flockForces, flockScan_eq self others hs]

lemma flockForces_dtt (self : Boid) (others : List Boid)
    (hs : self.perception = PERCEPTION_RADIUS) :
    (flockForces self others).different_type_total =
      (specAvoidNeighbors self others).length := by
  rw [flockForces, flockScan_eq self others hs]

lemma flock_acceleration (self : Boid) (others : List Boid) :
    (flock self others).acceleration =
      self.acceleration +
        (if (flockForces self others).different_type_total > 0 then
          (flockForces self others).avoidance * TURNING_FACTOR *
            ((0.5 : ℝ) + self.attractiveness)
        else (0 : Vec)) +
        ((flockForces self others).alignment + (flockForces self others).cohesion +
          (flockForces self others).separation) * TURNING_FACTOR *
            ((0.5 : ℝ) + self.attractiveness) := by
  by_cases hD : (flockForces self others).different_type_total > 0 <;>
    simp [flock, apply_force, hD]

/-- Claim C6: the flocking scan accumulates over the other boids with strict
distance comparisons and synthesizes cohesion, alignment, separation and
avoidance exactly as specified, each conditional on a positive neighbour
count (the avoidance sum being applied to the acceleration only when a
different-type neighbour was in range). -/
theorem flock_force_synthesis (self : Boid) (others : List Boid)
    (hs : self.perception = PERCEPTION_RADIUS) :
    (flockForces self others).cohesion =
      (if (specSameNeighbors self others).length > 0 then
        (((specSameNeighbors self others).map Boid.position).sum /
            ((specSameNeighbors self others).length : ℝ) - self.position) * (0.02 : ℝ)
      else (0 : Vec)) ∧
    (flockForces self others).alignment =
      (if (specSameNeighbors self others).length > 0 then
        (((specSameNeighbors self others).map Boid.velocity).sum /
            ((specSameNeighbors self others).length : ℝ) - self.velocity) * (0.05 : ℝ)
      else (0 : Vec)) ∧
    (flockForces self others).separation =
      (if (specSepNeighbors self others).length > 0 then
        ((specSepNeighbors self others).map
          fun o => self.position - o.position).sum * (0.3 : ℝ)
      else (0 : Vec)) ∧
    (flockForces self others).avoidance =
      ((specAvoidNeighbors self others).map
        fun o => (self.position - o.position) * (0.05 : ℝ)).sum ∧
    (flockForces self others).different_type_total =
      (specAvoidNeighbors self others).length ∧
    (flock self others).acceleration =
      self.acceleration +
        (if (specAvoidNeighbors self others).length > 0 then
          ((specAvoidNeighbors self others).map
            fun o => (self.position - o.position) * (0.05 : ℝ)).sum * TURNING_FACTOR *
              ((0.5 : ℝ) + self.attractiveness)
        else (0 : Vec)) +
        ((flockForces self others).alignment + (flockForces self others).cohesion +
          (flockForces self others).separation) * TURNING_FACTOR *
            ((0.5 : ℝ) + self.attractiveness) := by
  refine ⟨flockForces_cohesion self others hs, flockForces_alignment self others hs,
    flockForces_separation self others hs, flockForces_avoidance self others hs,
    flockForces_dtt self others hs, ?_⟩
  rw [flock_acceleration self others, flockForces_dtt self others hs,
    flockForces_avoidance self others hs]

/-- Witness for C6 at a concrete boid with an empty neighbour list. -/
theorem flock_force_synthesis_witness :
    cexA.perception = PERCEPTION_RADIUS ∧
      (flockForces cexA []).avoidance =
        ((specAvoidNeighbors cexA []).map
          fun o => (cexA.position - o.position) * (0.05 : ℝ)).sum :=
  ⟨rfl, (flock_force_synthesis cexA [] rfl).2.2.2.1⟩

/-- Claim C8: for two same-type boids within the separation radius of each
other and with no other boids around, the separation force computed for one
is the exact negation of the separation force computed for the other. -/
theorem separation_antisym (A B : Boid) (ht : A.type = B.type)
    (hA : A.perception = PERCEPTION_RADIUS) (hB : B.perception = PERCEPTION_RADIUS)
    (hd : linalgNorm (A.position - B.position) < SEPARATION_RADIUS) :
    (flockForces A [B]).separation = - (flockForces B [A]).separation := by
  have hd2 : linalgNorm (B.position - A.position) < SEPARATION_RADIUS := by
    rw [linalgNorm_sub_comm]
    exact hd
  have e1 : specSepNeighbors A [B] = [B] := by
    rw [specSep_cons, if_pos ⟨ht, hd⟩]
    simp [specSepNeighbors]
  have e2 : specSepNeighbors B [A] = [A] := by
    rw [specSep_cons, if_pos ⟨ht.symm, hd2⟩]
    simp [specSepNeighbors]
  rw [flockForces_separation A [B] hA, flockForces_separation B [A] hB, e1, e2]
  simp only [List.map_cons, List.map_nil, List.sum_cons, List.sum_nil,
    List.length_cons, List.length_nil]
  rw [if_pos (by omega), if_pos (by omega), Prod.ext_iff]
  constructor <;> simp [Prod.fst_sub, Prod.snd_sub] <;> ring

lemma cexAB_dist : linalgNorm (cexA.position - cexB.position) = 10 := by
  rw [show cexA.position - cexB.position = ((-10 : ℝ), (0 : ℝ)) by
      norm_num [cexA, cexB, Prod.ext_iff],
    linalgNorm]
  rw [show ((-10 : ℝ)) ^ 2 + (0 : ℝ) ^ 2 = 10 ^ 2 by norm_num,
    Real.sqrt_sq (by norm_num)]

/-- Witness for C8 at two concrete same-type boids at distance 10. -/
theorem separation_antisym_witness :
    cexA.type = cexB.type ∧
      (flockForces cexA [cexB]).separation = - (flockForces cexB [cexA]).separation :=
  ⟨rfl, separation_antisym cexA cexB rfl rfl rfl
    (by rw [cexAB_dist]; norm_num [SEPARATION_RADIUS])⟩

/-! Claim C9: the disruptive zone (black hole). -/

lemma blackHolePass_length (bh : Vec) (rand : ℕ → Vec) (boids : List Boid) :
    (blackHolePass bh rand boids).length = boids.length := by
  simp [blackHolePass]

lemma blackHolePass_getD (bh : Vec) (rand : ℕ → Vec) (boids : List Boid) (i : ℕ)
    (hi : i < boids.length) :
    (blackHolePass bh rand boids).getD i default =
      relocateBoid bh (rand i) (boids.getD i default) := by
  have hl : i < (blackHolePass bh rand boids).length := by
    rw [blackHolePass_length]
    exact hi
  rw [List.getD_eq_getElem _ _ hl, List.getD_eq_getElem _ _ hi]
  simp [blackHolePass]

/-- Claim C9: with the zone active, the frame first moves the zone centre by
the held keys, then relocates exactly the boids strictly inside the zone
radius to their injected random positions (all other attributes unchanged,
and the new position lies in the boundary rectangle when the random draws
do), leaves the other boids untouched, and only then runs the per-boid
flocking pass on the relocated list. -/
theorem black_hole_relocation (W H : ℝ) (keys : Movement) (rand : ℕ → Vec)
    (w : World) (hactive : w.black_hole_active = true)
    (hrand : ∀ i : ℕ, 0 ≤ (rand i).1 ∧ (rand i).1 ≤ W ∧
      0 ≤ (rand i).2 ∧ (rand i).2 ≤ H) :
    (frame W H false keys rand w).boids =
      boidLoop W H
        (blackHolePass (moveBlackHole keys w.black_hole_position) rand w.boids) ∧
    ∀ i : ℕ, i < w.boids.length →
      (linalgNorm ((w.boids.getD i default).position -
          moveBlackHole keys w.black_hole_position) < BLACK_HOLE_RADIUS →
        ((blackHolePass (moveBlackHole keys w.black_hole_position) rand
            w.boids).getD i default).position = rand i ∧
        0 ≤ ((blackHolePass (moveBlackHole keys w.black_hole_position) rand
            w.boids).getD i default).position.1 ∧
        ((blackHolePass (moveBlackHole keys w.black_hole_position) rand
            w.boids).getD i default).position.1 ≤ W ∧
        0 ≤ ((blackHolePass (moveBlackHole keys w.black_hole_position) rand
            w.boids).getD i default).position.2 ∧
        ((blackHolePass (moveBlackHole keys w.black_hole_position) rand
            w.boids).getD i default).position.2 ≤ H ∧
        ((blackHolePass (moveBlackHole keys w.black_hole_position) rand
            w.boids).getD i default).velocity = (w.boids.getD i default).velocity ∧
        ((blackHolePass (moveBlackHole keys w.black_hole_position) rand
            w.boids).getD i default).acceleration =
          (w.boids.getD i default).acceleration ∧
        ((blackHolePass (moveBlackHole keys w.black_hole_position) rand
            w.boids).getD i default).type = (w.boids.getD i default).type ∧
        ((blackHolePass (moveBlackHole keys w.black_hole_position) rand
            w.boids).getD i default).colorIndex =
          (w.boids.getD i default).colorIndex ∧
        ((blackHolePass (moveBlackHole keys w.black_hole_position) rand
            w.boids).getD i default).size = (w.boids.getD i default).size ∧
        ((blackHolePass (moveBlackHole keys w.black_hole_position) rand
            w.boids).getD i default).attractiveness =
          (w.boids.getD i default).attractiveness) ∧
      (¬ linalgNorm ((w.boids.getD i default).position -
          moveBlackHole keys w.black_hole_position) < BLACK_HOLE_RADIUS →
        (blackHolePass (moveBlackHole keys w.black_hole_position) rand
          w.boids).getD i default = w.boids.getD i default) := by
  constructor
  · simp [frame, hactive]
  · intro i hi
    rw [blackHolePass_getD _ _ _ _ hi]
    constructor
    · intro hd
      rw [relocateBoid, if_pos hd]
      refine ⟨rfl, (hrand i).1, (hrand i).2.1, (hrand i).2.2.1, (hrand i).2.2.2,
        rfl, rfl, rfl, rfl, rfl, rfl⟩
    · intro hd
      rw [relocateBoid, if_neg hd]

/-- Witness for C9: a one-boid world with the zone centred on the boid. -/
theorem black_hole_relocation_witness :
    (World.mk [cexA] ((0 : ℝ), (0 : ℝ)) true).black_hole_active = true ∧
      (frame 1920 1080 false (Movement.mk false false false false)
          (fun _ => ((5 : ℝ), (5 : ℝ)))
          (World.mk [cexA] ((0 : ℝ), (0 : ℝ)) true)).boids =
        boidLoop 1920 1080
          (blackHolePass
            (moveBlackHole (Movement.mk false false false false) ((0 : ℝ), (0 : ℝ)))
            (fun _ => ((5 : ℝ), (5 : ℝ))) [cexA]) :=
  ⟨rfl,
    (black_hole_relocation 1920 1080 (Movement.mk false false false false)
        (fun _ => ((5 : ℝ), (5 : ℝ))) (World.mk [cexA] ((0 : ℝ), (0 : ℝ)) true) rfl
        (fun _ => by norm_num)).1⟩

/-! Claim C1: ordering of force computation and motion integration in the
per-frame loop. -/

lemma runBoids_nil (W H : ℝ) (done : List Boid) : runBoids W H done [] = [] := rfl

lemma runBoids_cons (W H : ℝ) (done : List Boid) (b : Boid) (rest : List Boid) :
    runBoids W H done (b :: rest) =
      edges W H (update (flock b (done ++ rest))) ::
        runBoids W H (done ++ [edges W H (update (flock b (done ++ rest)))]) rest :=
  rfl

lemma runBoids_getD (W H : ℝ) :
    ∀ (todo done : List Boid) (i : ℕ), i < todo.length →
      (runBoids W H done todo).getD i default =
        edges W H (update (flock (todo.getD i default)
          (done ++ ((runBoids W H done todo).take i ++ todo.drop (i + 1))))) := by
  intro todo
  induction todo with
  | nil =>
    intro done i hi
    simp at hi
  | cons b rest ih =>
    intro done i hi
    cases i with
    | zero =>
      rw [runBoids_cons]
      simp
    | succ i =>
      rw [runBoids_cons]
      have hi2 : i < rest.length := by simpa using hi
      simp only [List.getD_cons_succ, List.take_succ_cons, List.drop_succ_cons]
      rw [ih (done ++ [edges W H (update (flock b (done ++ rest)))]) i hi2]
      simp [List.append_assoc]

/-- Claim C1 (amended): the per-tick update is one interleaved pass, not two:
the boid at index `i` computes its steering force from the already-updated
frame-k states of the boids before it in the list together with the frame-k-1
states of the boids after it, and is then immediately integrated and
wrapped. -/
theorem boidLoop_interleaved (W H : ℝ) (boids : List Boid) (i : ℕ)
    (hi : i < boids.length) :
    (boidLoop W H boids).getD i default =
      edges W H (update (flock (boids.getD i default)
        ((boidLoop W H boids).take i ++ boids.drop (i + 1)))) := by
  rw [boidLoop, runBoids_getD W H boids [] i hi, List.nil_append]

/-- Witness for the amended C1 on a concrete two-boid list. -/
theorem boidLoop_interleaved_witness :
    0 < ([cexA, cexB] : List Boid).length ∧
      (boidLoop 1920 1080 [cexA, cexB]).getD 0 default =
        edges 1920 1080 (update (flock (([cexA, cexB] : List Boid).getD 0 default)
          ((boidLoop 1920 1080 [cexA, cexB]).take 0 ++
            ([cexA, cexB] : List Boid).drop 1))) :=
  ⟨by simp, boidLoop_interleaved 1920 1080 [cexA, cexB] 0 (by simp)⟩

/-! Concrete evaluation of one frame on the two-boid list `[cexA, cexB]`,
used to separate the interleaved loop from the two-pass reading of the
spec. -/

lemma linalgNorm_eval {a b c : ℝ} (hc : 0 ≤ c) (h : a ^ 2 + b ^ 2 = c ^ 2) :
    linalgNorm ((a, b) : Vec) = c := by
  rw [linalgNorm]
  show Real.sqrt (a ^ 2 + b ^ 2) = c
  rw [h, Real.sqrt_sq hc]

lemma flock_fields (self : Boid) (others : List Boid) :
    (flock self others).position = self.position ∧
    (flock self others).velocity = self.velocity ∧
    (flock self others).max_speed = self.max_speed ∧
    (flock self others).perception = self.perception ∧
    (flock self others).colorIndex = self.colorIndex ∧
    (flock self others).type = self.type ∧
    (flock self others).size = self.size ∧
    (flock self others).attractiveness = self.attractiveness := by
  by_cases hD : (flockForces self others).different_type_total > 0 <;>
    simp [flock, apply_force, hD]

lemma same_cexA : specSameNeighbors cexA [cexB] = [cexB] := by
  rw [specSame_cons, if_pos ⟨rfl, by rw [cexAB_dist]; norm_num [cexA]⟩]
  simp [specSameNeighbors]

lemma sep_cexA : specSepNeighbors cexA [cexB] = [cexB] := by
  rw [specSep_cons, if_pos ⟨rfl, by rw [cexAB_dist]; norm_num [SEPARATION_RADIUS]⟩]
  simp [specSepNeighbors]

lemma avoid_cexA : specAvoidNeighbors cexA [cexB] = [] := by
  rw [specAvoid_cons, if_neg (fun h => h.1 rfl)]
  simp [specAvoidNeighbors]

lemma flock_cexA_acc : (flock cexA [cexB]).acceleration = (-(0.7 : ℝ), (0 : ℝ)) := by
  rw [flock_acceleration, flockForces_dtt cexA [cexB] rfl, avoid_cexA,
    flockForces_alignment cexA [cexB] rfl, flockForces_cohesion cexA [cexB] rfl,
    flockForces_separation cexA [cexB] rfl, same_cexA, sep_cexA]
  norm_num [cexA, cexB, TURNING_FACTOR, Prod.mk.injEq, Prod.ext_iff]

lemma flock_cexA_eq :
    flock cexA [cexB] = { cexA with acceleration := (-(0.7 : ℝ), (0 : ℝ)) } := by
  have h := flock_fields cexA [cexB]
  exact Boid.ext h.1 h.2.1 flock_cexA_acc h.2.2.1 h.2.2.2.1 h.2.2.2.2.1
    h.2.2.2.2.2.1 h.2.2.2.2.2.2.1 h.2.2.2.2.2.2.2

lemma upd_cexA :
    update { cexA with acceleration := (-(0.7 : ℝ), (0 : ℝ)) } =
      { cexA with velocity := (-(0.7 : ℝ), (0 : ℝ)),
                  position := (-(0.7 : ℝ), (0 : ℝ)) } := by
  have hv : ({ cexA with acceleration := (-(0.7 : ℝ), (0 : ℝ)) } : Boid).velocity +
      ({ cexA with acceleration := (-(0.7 : ℝ), (0 : ℝ)) } : Boid).acceleration =
        (-(0.7 : ℝ), (0 : ℝ)) := by
    norm_num [cexA, Prod.ext_iff]
  have hn : linalgNorm ((-(0.7 : ℝ), (0 : ℝ)) : Vec) = 0.7 :=
    linalgNorm_eval (by norm_num) (by norm_num)
  have hv2 : (update { cexA with acceleration := (-(0.7 : ℝ), (0 : ℝ)) }).velocity =
      (-(0.7 : ℝ), (0 : ℝ)) := by
    rw [update_velocity_def, hv, hn, if_neg (by norm_num [cexA])]
  refine Boid.ext ?_ ?_ rfl rfl rfl rfl rfl rfl rfl
  · rw [update_position_def, hv2]
    norm_num [cexA, Prod.ext_iff]
  · rw [hv2]

lemma edges_upd_cexA :
    edges 1920 1080
        ({ cexA with velocity := (-(0.7 : ℝ), (0 : ℝ)),
                     position := (-(0.7 : ℝ), (0 : ℝ)) }) = cexA2 := by
  refine Boid.ext ?_ rfl rfl rfl rfl rfl rfl rfl rfl
  rw [edges_position_eq]
  norm_num [cexA2, Prod.ext_iff]

lemma step_cexA : edges 1920 1080 (update (flock cexA [cexB])) = cexA2 := by
  rw [flock_cexA_eq, upd_cexA, edges_upd_cexA]

lemma dist_cexB_cexA2 : linalgNorm (cexB.position - cexA2.position) = 1910 := by
  rw [show cexB.position - cexA2.position = ((-1910 : ℝ), (0 : ℝ)) from by
      norm_num [cexB, cexA2, Prod.ext_iff]]
  exact linalgNorm_eval (by norm_num) (by norm_num)

lemma same_cexB_A2 : specSameNeighbors cexB [cexA2] = [] := by
  rw [specSame_cons,
    if_neg (fun h => absurd h.2 (by rw [dist_cexB_cexA2]; norm_num [cexB]))]
  simp [specSameNeighbors]

lemma sep_cexB_A2 : specSepNeighbors cexB [cexA2] = [] := by
  rw [specSep_cons,
    if_neg (fun h => absurd h.2 (by rw [dist_cexB_cexA2]; norm_num [SEPARATION_RADIUS]))]
  simp [specSepNeighbors]

lemma avoid_cexB_A2 : specAvoidNeighbors cexB [cexA2] = [] := by
  rw [specAvoid_cons, if_neg (fun h => h.1 rfl)]
  simp [specAvoidNeighbors]

lemma flock_cexB_A2_acc : (flock cexB [cexA2]).acceleration = ((0 : ℝ), (0 : ℝ)) := by
  rw [flock_acceleration, flockForces_dtt cexB [cexA2] rfl, avoid_cexB_A2,
    flockForces_alignment cexB [cexA2] rfl, flockForces_cohesion cexB [cexA2] rfl,
    flockForces_separation cexB [cexA2] rfl, same_cexB_A2, sep_cexB_A2]
  norm_num [cexB, Prod.ext_iff]

lemma flock_cexB_A2_eq : flock cexB [cexA2] = cexB := by
  have h := flock_fields cexB [cexA2]
  exact Boid.ext h.1 h.2.1 flock_cexB_A2_acc h.2.2.1 h.2.2.2.1 h.2.2.2.2.1
    h.2.2.2.2.2.1 h.2.2.2.2.2.2.1 h.2.2.2.2.2.2.2

lemma upd_cexB : update cexB = cexB := by
  have hv : cexB.velocity + cexB.acceleration = ((0 : ℝ), (0 : ℝ)) := by
    norm_num [cexB, Prod.ext_iff]
  have hn : linalgNorm (((0 : ℝ), (0 : ℝ)) : Vec) = 0 :=
    linalgNorm_eval le_rfl (by norm_num)
  have hv2 : (update cexB).velocity = ((0 : ℝ), (0 : ℝ)) := by
    rw [update_velocity_def, hv, hn, if_neg (by norm_num [cexB])]
  refine Boid.ext ?_ ?_ rfl rfl rfl rfl rfl rfl rfl
  · rw [update_position_def, hv2]
    exact vec_add_zero _
  · rw [hv2]
    rfl

lemma edges_cexB : edges 1920 1080 cexB = cexB := by
  refine Boid.ext ?_ rfl rfl rfl rfl rfl rfl rfl rfl
  rw [edges_position_eq]
  norm_num [cexB, Prod.ext_iff]

lemma boidLoop_cex : boidLoop 1920 1080 [cexA, cexB] = [cexA2, cexB] := by
  rw [boidLoop, runBoids_cons]
  simp only [List.nil_append]
  rw [step_cexA, runBoids_cons]
  simp only [List.append_nil]
  rw [flock_cexB_A2_eq, upd_cexB, edges_cexB, runBoids_nil]

lemma dist_cexB_cexA : linalgNorm (cexB.position - cexA.position) = 10 := by
  rw [linalgNorm_sub_comm, cexAB_dist]

lemma same_cexB_A : specSameNeighbors cexB [cexA] = [cexA] := by
  rw [specSame_cons, if_pos ⟨rfl, by rw [dist_cexB_cexA]; norm_num [cexB]⟩]
  simp [specSameNeighbors]

lemma sep_cexB_A : specSepNeighbors cexB [cexA] = [cexA] := by
  rw [specSep_cons, if_pos ⟨rfl, by rw [dist_cexB_cexA]; norm_num [SEPARATION_RADIUS]⟩]
  simp [specSepNeighbors]

lemma avoid_cexB_A : specAvoidNeighbors cexB [cexA] = [] := by
  rw [specAvoid_cons, if_neg (fun h => h.1 rfl)]
  simp [specAvoidNeighbors]

lemma flock_cexB_A_acc : (flock cexB [cexA]).acceleration = ((0.7 : ℝ), (0 : ℝ)) := by
  rw [flock_acceleration, flockForces_dtt cexB [cexA] rfl, avoid_cexB_A,
    flockForces_alignment cexB [cexA] rfl, flockForces_cohesion cexB [cexA] rfl,
    flockForces_separation cexB [cexA] rfl, same_cexB_A, sep_cexB_A]
  norm_num [cexA, cexB, TURNING_FACTOR, Prod.mk.injEq, Prod.ext_iff]

lemma flock_cexB_A_eq :
    flock cexB [cexA] = { cexB with acceleration := ((0.7 : ℝ), (0 : ℝ)) } := by
  have h := flock_fields cexB [cexA]
  exact Boid.ext h.1 h.2.1 flock_cexB_A_acc h.2.2.1 h.2.2.2.1 h.2.2.2.2.1
    h.2.2.2.2.2.1 h.2.2.2.2.2.2.1 h.2.2.2.2.2.2.2

lemma upd_cexB_forced :
    update { cexB with acceleration := ((0.7 : ℝ), (0 : ℝ)) } =
      { cexB with velocity := ((0.7 : ℝ), (0 : ℝ)),
                  position := ((10.7 : ℝ), (0 : ℝ)) } := by
  have hv : ({ cexB with acceleration := ((0.7 : ℝ), (0 : ℝ)) } : Boid).velocity +
      ({ cexB with acceleration := ((0.7 : ℝ), (0 : ℝ)) } : Boid).acceleration =
        ((0.7 : ℝ), (0 : ℝ)) := by
    norm_num [cexB, Prod.ext_iff]
  have hn : linalgNorm (((0.7 : ℝ), (0 : ℝ)) : Vec) = 0.7 :=
    linalgNorm_eval (by norm_num) (by norm_num)
  have hv2 : (update { cexB with acceleration := ((0.7 : ℝ), (0 : ℝ)) }).velocity =
      ((0.7 : ℝ), (0 : ℝ)) := by
    rw [update_velocity_def, hv, hn, if_neg (by norm_num [cexB])]
  refine Boid.ext ?_ ?_ rfl rfl rfl rfl rfl rfl rfl
  · rw [update_position_def, hv2]
    norm_num [cexB, Prod.ext_iff]
  · rw [hv2]

lemma edges_updB2 :
    edges 1920 1080
        ({ cexB with velocity := ((0.7 : ℝ), (0 : ℝ)),
                     position := ((10.7 : ℝ), (0 : ℝ)) }) = cexB2 := by
  refine Boid.ext ?_ rfl rfl rfl rfl rfl rfl rfl rfl
  rw [edges_position_eq]
  norm_num [cexB2, Prod.ext_iff]

lemma twoPass_cex : specTwoPassLoop 1920 1080 [cexA, cexB] = [cexA2, cexB2] := by
  rw [specTwoPassLoop,
    show ([cexA, cexB] : List Boid).length = 2 from rfl,
    show List.range 2 = [0, 1] from rfl]
  simp only [List.map_cons, List.map_nil]
  rw [show ([cexA, cexB] : List Boid).getD 0 default = cexA from rfl,
    show ([cexA, cexB] : List Boid).getD 1 default = cexB from rfl,
    show ([cexA, cexB] : List Boid).eraseIdx 0 = [cexB] from rfl,
    show ([cexA, cexB] : List Boid).eraseIdx 1 = [cexA] from rfl,
    flock_cexA_eq, flock_cexB_A_eq, upd_cexA, upd_cexB_forced, edges_upd_cexA,
    edges_updB2]

/-- Counterexample to C1 as stated: on the concrete two-boid list the
interleaved loop the code runs differs from the two-pass (snapshot)
semantics the claim asserts, because the second boid reacts to the first
boid's already-updated frame-k position. -/
theorem interleaving_counterexample :
    boidLoop 1920 1080 [cexA, cexB] ≠ specTwoPassLoop 1920 1080 [cexA, cexB] := by
  rw [boidLoop_cex, twoPass_cex]
  intro h
  have h1 : cexB = cexB2 := by
    injection h with ha hb
    injection hb with hc hd
  have h2 := congrArg (fun b => b.position.1) h1
  norm_num [cexB, cexB2] at h2

end BoidArt
